import Mathlib

/-!
Verification of the session/context orchestration and retrieval-augmented
response pipeline of the RobotAI repository.  The Python sources
(`src/mcp/context_builder.py`, `src/llm/typhoon_client.py`,
`src/api/main.py`) are shallowly embedded: strings are handled through
their character lists, Python dictionaries become association lists or
functions into `Option`, wall-clock timestamps become an explicit `now`
parameter, and the two collaborator gateways (memory retrieval, LLM chat)
become explicit inputs of the orchestration function.
-/

namespace RobotAI

/-! ## Character-level models of the Python string primitives

Models of `sep in s`, `s.split(sep)` and `s.strip()` as used by
`TyphoonClient.generate_structured`. -/

/-- Whitespace characters stripped by `str.strip()` and skipped by the JSON
decoder (space, tab, newline, carriage return). -/
def isWsChar (c : Char) : Bool :=
  c = ' ' || c = '\t' || c = '\n' || c = '\r'

/-- Drop leading whitespace characters. -/
def ltrimL (l : List Char) : List Char := l.dropWhile isWsChar

/-- Drop trailing whitespace characters. -/
def rtrimL (l : List Char) : List Char := (l.reverse.dropWhile isWsChar).reverse

/-- Drop leading and trailing whitespace characters. -/
def trimL (l : List Char) : List Char := rtrimL (ltrimL l)

/-- Model of Python `s.strip()`. -/
def pyStrip (s : String) : String := ⟨trimL s.data⟩

/-- Index of the leftmost occurrence of the non-empty separator `c :: cs`
in a character list, as scanned by Python `str.split` / the `in` operator. -/
def firstOcc (c : Char) (cs : List Char) : List Char → Option Nat
  | [] => none
  | a :: s =>
    if (c :: cs).isPrefixOf (a :: s) then some 0
    else (firstOcc c cs s).map (· + 1)

/-- Fuelled worker for Python `str.split(sep)` with a non-empty separator:
cut at the leftmost occurrence and continue after it. -/
def splitGo : Nat → Char → List Char → List Char → List (List Char)
  | 0, _, _, s => [s]
  | fuel + 1, c, cs, s =>
    match firstOcc c cs s with
    | none => [s]
    | some i => s.take i :: splitGo fuel c cs (s.drop (i + (cs.length + 1)))

/-- Python `str.split(sep)` on character lists, separator `c :: cs`. -/
def pySplitL (c : Char) (cs : List Char) (s : List Char) : List (List Char) :=
  splitGo (s.length + 1) c cs s

/-- Model of Python `s.split(sep)` for a non-empty separator. -/
def pySplit (s sep : String) : List String :=
  match sep.data with
  | [] => [s]
  | c :: cs => (pySplitL c cs s.data).map (fun l => ⟨l⟩)

/-- Model of the Python containment test `sub in s`. -/
def pyContains (s sub : String) : Bool :=
  match sub.data with
  | [] => true
  | c :: cs => (firstOcc c cs s.data).isSome

/-- List indexing as used on the results of `str.split`; the source only
indexes positions that are guaranteed to exist by a preceding `in` check. -/
def pyIndex (l : List String) (i : Nat) : String := l.getD i ""

/-! ## JSON values and a model of `json.loads` -/

/-- JSON values as produced by `json.loads`.  A number is kept as the exact
decimal `mantissa * 10 ^ exp10` rather than a binary float; no claim
depends on float rounding. -/
inductive Json where
  | null : Json
  | bool : Bool → Json
  | num : (mantissa : Int) → (exp10 : Int) → Json
  | str : String → Json
  | arr : List Json → Json
  | obj : List (String × Json) → Json

/-- Python truthiness of a JSON value (`if not llm_output`,
`... and location`). -/
def Json.truthy : Json → Bool
  | .null => false
  | .bool b => b
  | .num m _ => m != 0
  | .str s => !(s == "")
  | .arr xs => !xs.isEmpty
  | .obj fs => !fs.isEmpty

/-- Python `dict.get(k)` on a decoded JSON object. -/
def jget (fields : List (String × Json)) (k : String) : Option Json :=
  match fields with
  | [] => none
  | (k', v) :: rest => if k' = k then some v else jget rest k

/-- Key insertion under Python dict semantics: an existing key is
overwritten in place, a new key is appended. -/
def objInsert (fields : List (String × Json)) (k : String) (v : Json) :
    List (String × Json) :=
  match fields with
  | [] => [(k, v)]
  | (k', v') :: rest =>
    if k' = k then (k', v) :: rest else (k', v') :: objInsert rest k v

/-- Drop the JSON whitespace allowed between tokens. -/
def skipWs (l : List Char) : List Char := l.dropWhile isWsChar

/-- Value of a hexadecimal digit. -/
def hexVal (c : Char) : Option Nat :=
  if '0' ≤ c ∧ c ≤ '9' then some (c.toNat - '0'.toNat)
  else if 'a' ≤ c ∧ c ≤ 'f' then some (c.toNat - 'a'.toNat + 10)
  else if 'A' ≤ c ∧ c ≤ 'F' then some (c.toNat - 'A'.toNat + 10)
  else none

/-- Parse the body of a JSON string literal, the opening quote already
consumed, returning the decoded characters and the remaining input.
Simplification versus CPython: a `\uXXXX` escape is decoded as one code
point and surrogate pairs are not combined; no claim involves them. -/
def parseJStrAux : List Char → List Char → Option (List Char × List Char)
  | _, [] => none
  | acc, c :: rest =>
    if c = '"' then some (acc.reverse, rest)
    else if c = '\\' then
      match rest with
      | [] => none
      | e :: rest' =>
        if e = '"' then parseJStrAux ('"' :: acc) rest'
        else if e = '\\' then parseJStrAux ('\\' :: acc) rest'
        else if e = '/' then parseJStrAux ('/' :: acc) rest'
        else if e = 'b' then parseJStrAux ('\x08' :: acc) rest'
        else if e = 'f' then parseJStrAux ('\x0c' :: acc) rest'
        else if e = 'n' then parseJStrAux ('\n' :: acc) rest'
        else if e = 'r' then parseJStrAux ('\r' :: acc) rest'
        else if e = 't' then parseJStrAux ('\t' :: acc) rest'
        else if e = 'u' then
          match rest' with
          | a :: b :: c2 :: d :: rest2 =>
            match hexVal a, hexVal b, hexVal c2, hexVal d with
            | some ha, some hb, some hc, some hd =>
              parseJStrAux
                (Char.ofNat (((ha * 16 + hb) * 16 + hc) * 16 + hd) :: acc) rest2
            | _, _, _, _ => none
          | _ => none
        else none
    else if c.toNat < 32 then none
    else parseJStrAux (c :: acc) rest

/-- Accumulate decimal digits into a natural number. -/
def digitsToNat (acc : Nat) : List Char → Nat
  | [] => acc
  | c :: rest => digitsToNat (acc * 10 + (c.toNat - '0'.toNat)) rest

/-- Assemble a parsed JSON number from its sign, mantissa digits (integer
and fraction concatenated), fraction length and exponent. -/
def mkJNum (neg : Bool) (mantDs : List Char) (fracLen : Nat) (e : Int) : Json :=
  let m : Int := Int.ofNat (digitsToNat 0 mantDs)
  Json.num (if neg then -m else m) (e - Int.ofNat fracLen)

/-- Parse the optional exponent digits of a JSON number. -/
def parseExpDigits (neg : Bool) (mantDs : List Char) (fracLen : Nat)
    (l : List Char) : Option (Json × List Char) :=
  let p := match l with
    | '+' :: r => (false, r)
    | '-' :: r => (true, r)
    | _ => (false, l)
  let es := p.2.takeWhile Char.isDigit
  let l2 := p.2.dropWhile Char.isDigit
  if es = [] then none
  else
    let e : Int := Int.ofNat (digitsToNat 0 es)
    some (mkJNum neg mantDs fracLen (if p.1 then -e else e), l2)

/-- Parse the optional exponent part of a JSON number. -/
def parseExpPart (neg : Bool) (mantDs : List Char) (fracLen : Nat) :
    List Char → Option (Json × List Char)
  | 'e' :: r => parseExpDigits neg mantDs fracLen r
  | 'E' :: r => parseExpDigits neg mantDs fracLen r
  | l => some (mkJNum neg mantDs fracLen 0, l)

/-- Parse a JSON number per the strict grammar of `json.loads`: optional
minus, integer part without leading zeros, optional fraction, optional
exponent. -/
def parseJNum (l : List Char) : Option (Json × List Char) :=
  let p := match l with
    | '-' :: rest => (true, rest)
    | _ => (false, l)
  let ds := p.2.takeWhile Char.isDigit
  let l2 := p.2.dropWhile Char.isDigit
  if ds = [] then none
  else if ds.length > 1 ∧ ds.headD 'x' = '0' then none
  else
    match l2 with
    | '.' :: r2 =>
      let fs := r2.takeWhile Char.isDigit
      let l3 := r2.dropWhile Char.isDigit
      if fs = [] then none
      else parseExpPart p.1 (ds ++ fs) fs.length l3
    | _ => parseExpPart p.1 ds 0 l2

/-- Match a fixed literal and return the rest of the input. -/
def expectLit (lit : List Char) (l : List Char) : Option (List Char) :=
  if lit.isPrefixOf l then some (l.drop lit.length) else none

mutual

/-- Fuelled recursive-descent parser for a JSON value. -/
def parseValue : Nat → List Char → Option (Json × List Char)
  | 0, _ => none
  | fuel + 1, l =>
    match skipWs l with
    | [] => none
    | c :: rest =>
      if c = 'n' then (expectLit ['u', 'l', 'l'] rest).map (fun r => (Json.null, r))
      else if c = 't' then
        (expectLit ['r', 'u', 'e'] rest).map (fun r => (Json.bool true, r))
      else if c = 'f' then
        (expectLit ['a', 'l', 's', 'e'] rest).map (fun r => (Json.bool false, r))
      else if c = '"' then
        (parseJStrAux [] rest).map (fun pr => (Json.str ⟨pr.1⟩, pr.2))
      else if c = '[' then
        match skipWs rest with
        | ']' :: r => some (Json.arr [], r)
        | r => (parseElems fuel r).map (fun pr => (Json.arr pr.1, pr.2))
      else if c = '\x7b' then
        match skipWs rest with
        | '\x7d' :: r => some (Json.obj [], r)
        | r => (parseMembers fuel [] r).map (fun pr => (Json.obj pr.1, pr.2))
      else if c = '-' ∨ c.isDigit then parseJNum (c :: rest)
      else none

/-- Fuelled parser for the elements of a non-empty JSON array. -/
def parseElems : Nat → List Char → Option (List Json × List Char)
  | 0, _ => none
  | fuel + 1, l =>
    match parseValue fuel l with
    | none => none
    | some (v, r) =>
      match skipWs r with
      | ',' :: r' => (parseElems fuel r').map (fun pr => (v :: pr.1, pr.2))
      | ']' :: r' => some ([v], r')
      | _ => none

/-- Fuelled parser for the members of a non-empty JSON object; duplicate
keys overwrite as in Python dict construction. -/
def parseMembers : Nat → List (String × Json) → List Char →
    Option (List (String × Json) × List Char)
  | 0, _, _ => none
  | fuel + 1, acc, l =>
    match skipWs l with
    | '"' :: r =>
      match parseJStrAux [] r with
      | none => none
      | some (ks, r') =>
        match skipWs r' with
        | ':' :: r2 =>
          match parseValue fuel r2 with
          | none => none
          | some (v, r3) =>
            match skipWs r3 with
            | ',' :: r4 => parseMembers fuel (objInsert acc ⟨ks⟩ v) r4
            | '\x7d' :: r4 => some (objInsert acc ⟨ks⟩ v, r4)
            | _ => none
        | _ => none
    | _ => none

end

/-- Model of Python `json.loads`: strict decoding of the whole string,
`none` on a decode error. -/
def json_loads (s : String) : Option Json :=
  match parseValue (s.data.length + 1) s.data with
  | some (v, rest) => if skipWs rest = [] then some v else none
  | none => none

/-! ## The structured response parser of `TyphoonClient` -/

/-- The markdown code-fence extraction performed by
`TyphoonClient.generate_structured` before JSON decoding. -/
def extract_response (response : String) : String :=
  if pyContains response "```json" then
    pyStrip (pyIndex (pySplit (pyIndex (pySplit response "```json") 1) "```") 0)
  else if pyContains response "```" then
    pyStrip (pyIndex (pySplit (pyIndex (pySplit response "```") 1) "```") 0)
  else response

/-- Model of `TyphoonClient.generate_structured` as a function of the raw
text returned by the chat gateway (`none` when the gateway gave no reply).
Returns the decoded JSON value, or `none` on a missing reply, an empty
reply (falsy in Python) or a JSON decode error; the two failure sources
are not told apart in the return value, matching the source. -/
def generate_structured (chatResult : Option String) : Option Json :=
  match chatResult with
  | none => none
  | some response =>
    if response = "" then none
    else json_loads (extract_response response)

/-! ## Session store and `ContextBuilder` -/

/-- One conversation turn; the ISO timestamp string is abstracted to a
numeric clock value supplied by the caller. -/
structure ConversationTurn where
  role : String
  content : String
  timestamp : Nat
deriving Repr, DecidableEq

/-- One session context dict as created by `ContextBuilder.create_session`.
Fields that Python initialises to `None` are `Option`s; `environment_info`
is an association list with Python dict update semantics. -/
structure Session where
  session_id : String
  student_id : Option String
  student_name : Option String
  conversation_history : List ConversationTurn
  current_location : Option String
  detected_faces : List String
  environment_info : List (String × String)
  created_at : Nat
  last_updated : Nat
deriving Repr, DecidableEq

/-- The `session_contexts` mapping of a `ContextBuilder`. -/
abbrev Store := String → Option Session

/-- Write one session into the mapping. -/
def setSession (store : Store) (sid : String) (s : Session) : Store :=
  fun k => if k = sid then some s else store k

/-- The fresh session dict built by `ContextBuilder.create_session`. -/
def freshSession (sid : String) (now : Nat) : Session :=
  { session_id := sid
    student_id := none
    student_name := none
    conversation_history := []
    current_location := none
    detected_faces := []
    environment_info := []
    created_at := now
    last_updated := now }

/-- Model of `ContextBuilder.create_session`. -/
def create_session (store : Store) (sid : String) (now : Nat) : Store :=
  setSession store sid (freshSession sid now)

/-- The `if session_id not in self.session_contexts: self.create_session`
preamble shared by every mutation: the session to mutate together with the
store after the possible implicit creation. -/
def ensureGet (store : Store) (sid : String) (now : Nat) : Session × Store :=
  match store sid with
  | some s => (s, store)
  | none => (freshSession sid now, create_session store sid now)

/-- Model of `ContextBuilder.update_student_identity`. -/
def update_student_identity (store : Store) (sid stuId stuName : String)
    (now : Nat) : Store :=
  let p := ensureGet store sid now
  setSession p.2 sid
    { p.1 with
        student_id := some stuId
        student_name := some stuName
        last_updated := now }

/-- The history push of `ContextBuilder.add_conversation_turn`: append the
turn, then keep only the last `max_history = 10` turns. -/
def pushTurn (h : List ConversationTurn) (t : ConversationTurn) :
    List ConversationTurn :=
  let h' := h ++ [t]
  if h'.length > 10 then h'.drop (h'.length - 10) else h'

/-- Model of `ContextBuilder.add_conversation_turn`. -/
def add_conversation_turn (store : Store) (sid role content : String)
    (now : Nat) : Store :=
  let p := ensureGet store sid now
  setSession p.2 sid
    { p.1 with
        conversation_history :=
          pushTurn p.1.conversation_history
            { role := role, content := content, timestamp := now }
        last_updated := now }

/-- Model of `ContextBuilder.update_location`. -/
def update_location (store : Store) (sid loc : String) (now : Nat) : Store :=
  let p := ensureGet store sid now
  setSession p.2 sid
    { p.1 with current_location := some loc, last_updated := now }

/-- Association-list lookup modelling Python dict access for the
environment map. -/
def alookup (d : List (String × String)) (k : String) : Option String :=
  match d with
  | [] => none
  | (k', v) :: rest => if k' = k then some v else alookup rest k

/-- Python `dict.update`: keys already present are overwritten in place,
new keys are appended in order. -/
def dictUpdate (d p : List (String × String)) : List (String × String) :=
  d.map (fun kv =>
    match alookup p kv.1 with
    | some w => (kv.1, w)
    | none => kv) ++
  p.filter (fun kv => (alookup d kv.1).isNone)

/-- Model of `ContextBuilder.update_environment`. -/
def update_environment (store : Store) (sid : String)
    (envData : List (String × String)) (now : Nat) : Store :=
  let p := ensureGet store sid now
  setSession p.2 sid
    { p.1 with
        environment_info := dictUpdate p.1.environment_info envData
        last_updated := now }

/-! ## `build_llm_context` and `format_context_as_prompt` -/

/-- A memory record returned (already ranked) by the Milvus retrieval
gateway; only the fields read by `build_llm_context` are modelled. -/
structure MemoryRecord where
  text : String
  score : ℚ
  memory_type : String
deriving Repr, DecidableEq

/-- One entry of the `relevant_memories` list of the built context. -/
structure MemoryEntry where
  content : String
  relevance_score : ℚ
  memtype : String
deriving Repr, DecidableEq

/-- The `student_info` sub-dict of the built context. -/
structure StudentInfo where
  id : Option String
  name : Option String
deriving Repr, DecidableEq

/-- The context dict returned by `ContextBuilder.build_llm_context`. -/
structure LLMContext where
  student_info : StudentInfo
  conversation_history : List ConversationTurn
  current_location : Option String
  environment : List (String × String)
  relevant_memories : List MemoryEntry
deriving Repr, DecidableEq

/-- Python slice `l[-n:]` for `n > 0`. -/
def lastN (n : Nat) (l : List α) : List α := l.drop (l.length - n)

/-- The pure part of `ContextBuilder.build_llm_context`: the context dict
built from an existing session and the retrieved memories.  Note that
`ctx.get("student_id", "unknown")` and the other `"unknown"` defaults in
the source never fire, because `create_session` stores every key (with
value `None`); the embedding therefore reads the stored optional values
directly. -/
def buildFromSession (s : Session) (mems : List MemoryRecord) : LLMContext :=
  { student_info := { id := s.student_id, name := s.student_name }
    conversation_history := lastN 5 s.conversation_history
    current_location := s.current_location
    environment := s.environment_info
    relevant_memories :=
      if mems.isEmpty then []
      else (mems.take 3).map (fun m =>
        { content := m.text
          relevance_score := m.score
          memtype := m.memory_type }) }

/-- Model of `ContextBuilder.build_llm_context` including its implicit
session creation. -/
def build_llm_context (store : Store) (sid : String)
    (mems : List MemoryRecord) (now : Nat) : LLMContext × Store :=
  let p := ensureGet store sid now
  (buildFromSession p.1 mems, p.2)

/-- Python `str()` conversion as applied by f-string interpolation to the
optional identity value (`None` prints as "None"). -/
def pyStrOfOpt : Option String → String
  | none => "None"
  | some s => s

/-- One rendered line of the recent-conversation block. -/
def fmtTurnLine (t : ConversationTurn) : String :=
  (if t.role = "user" then "นักศึกษา" else "หุ่นยนต์") ++ ": " ++ t.content

/-- The `prompt_parts` list built by
`ContextBuilder.format_context_as_prompt`. -/
def prompt_parts (c : LLMContext) : List String :=
  (if c.student_info.name ≠ some "unknown" then
      ["คุณกำลังพูดคุยกับ " ++ pyStrOfOpt c.student_info.name]
    else []) ++
  (match c.current_location with
   | none => []
   | some l =>
     if l ≠ "" ∧ l ≠ "unknown" then ["ตำแหน่งปัจจุบัน: " ++ l] else []) ++
  (if c.relevant_memories.isEmpty then []
   else "\nความทรงจำที่เกี่ยวข้อง:" ::
     c.relevant_memories.enum.map
       (fun pr => toString (pr.1 + 1) ++ ". " ++ pr.2.content)) ++
  (if c.conversation_history.isEmpty then []
   else "\nบทสนทนาล่าสุด:" ::
     (lastN 3 c.conversation_history).map fmtTurnLine)

/-- Model of `ContextBuilder.format_context_as_prompt`. -/
def format_context_as_prompt (c : LLMContext) : String :=
  String.intercalate "\n" (prompt_parts c)

/-! ## The `/speech/input` orchestrator -/

/-- The navigation goal dict prepared for the response payload; the raw
decoded location value is stored, as in the source. -/
structure NavigationGoal where
  target_location : Json
  priority : String

/-- The `ChatResponse` pydantic model. -/
structure ChatResponse where
  session_id : String
  response_text : String
  intent : String
  should_navigate : Bool
  navigation_goal : Option NavigationGoal

/-- The `SpeechInput` pydantic model; the float confidence is modelled as
a rational, which agrees with float comparison on the exactly-representable
values the claims quantify over. -/
structure SpeechInput where
  session_id : String
  text : String
  confidence : ℚ

/-- Observable outcome of one `/speech/input` request: the HTTP-level
result (`Except.error 500` models the `HTTPException(status_code=500)`
raised by the catch-all handler), the session store afterwards, and
whether the memory and LLM gateways were invoked. -/
structure SpeechOutcome where
  result : Except Nat ChatResponse
  store : Store
  memory_called : Bool
  llm_called : Bool

/-- The fixed clarification reply returned below the confidence
threshold. -/
def clarification_text : String :=
  "ขอโทษค่ะ ฉันไม่ค่อยได้ยินชัดเจน ช่วยพูดอีกครั้งได้ไหมคะ"

/-- The fallback apology substituted when a parsed output lacks the
`response` key. -/
def apology_text : String := "ขอโทษค่ะ ฉันไม่เข้าใจ"

/-- Python `str()` rendering of a decoded JSON value, as applied when a
value reaches a string field of the response model or an f-string; only
the string case is exercised by any claim. -/
def pyJsonToStr : Json → String
  | .str s => s
  | .null => "None"
  | .bool true => "True"
  | .bool false => "False"
  | .num m e => toString m ++ "e" ++ toString e
  | .arr _ => "[...]"
  | .obj _ => "dict"

/-- The navigation decision of `process_speech`: navigate exactly when the
parsed intent value equals the string "navigation" and the location value
is present and truthy, in which case the goal dict is built. -/
def resolve_navigation (intent : Json) (location : Option Json) :
    Bool × Option NavigationGoal :=
  match intent, location with
  | Json.str i, some l =>
    if i = "navigation" ∧ l.truthy then
      (true, some { target_location := l, priority := "normal" })
    else (false, none)
  | _, _ => (false, none)

/-- Model of the `/speech/input` handler `process_speech`.  Inputs beyond
the request body: the configured confidence threshold, the session store,
the ranked memory list the Milvus gateway returns, the raw text the chat
gateway returns (`none` when it gives no reply), and the clock.  The
assembled prompt is passed only to the gateway and so does not influence
the modelled outcome.  A `raise` reaching the catch-all handler becomes
`Except.error 500`. -/
def process_speech (threshold : ℚ) (store : Store) (speech : SpeechInput)
    (memories : List MemoryRecord) (chatResult : Option String) (now : Nat) :
    SpeechOutcome :=
  if speech.confidence < threshold then
    { result := Except.ok
        { session_id := speech.session_id
          response_text := clarification_text
          intent := "clarification"
          should_navigate := false
          navigation_goal := none }
      store := store
      memory_called := false
      llm_called := false }
  else
    let st1 := add_conversation_turn store speech.session_id "user" speech.text now
    let bc := build_llm_context st1 speech.session_id memories now
    match generate_structured chatResult with
    | none =>
      { result := Except.error 500, store := bc.2
        memory_called := true, llm_called := true }
    | some out =>
      if out.truthy = false then
        { result := Except.error 500, store := bc.2
          memory_called := true, llm_called := true }
      else
        match out with
        | Json.obj fields =>
          let response_text :=
            pyJsonToStr ((jget fields "response").getD (Json.str apology_text))
          let intent := (jget fields "intent").getD (Json.str "conversation")
          let location := jget fields "location"
          let st3 :=
            add_conversation_turn bc.2 speech.session_id "assistant"
              response_text now
          let nav := resolve_navigation intent location
          { result := Except.ok
              { session_id := speech.session_id
                response_text := response_text
                intent := pyJsonToStr intent
                should_navigate := nav.1
                navigation_goal := nav.2 }
            store := st3
            memory_called := true
            llm_called := true }
        | _ =>
          { result := Except.error 500, store := bc.2
            memory_called := true, llm_called := true }

/-- Iterated `add_conversation_turn` on one session: each item is a
`(role, content, now)` triple. -/
def appendTurns (store : Store) (sid : String)
    (items : List (String × String × Nat)) : Store :=
  items.foldl (fun st it => add_conversation_turn st sid it.1 it.2.1 it.2.2) store

/-- The turn recorded for one `(role, content, now)` item. -/
def mkTurn (it : String × String × Nat) : ConversationTurn :=
  { role := it.1, content := it.2.1, timestamp := it.2.2 }

/-! ## Lemmas about `lastN` and the history push -/

theorem lastN_length (n : Nat) (l : List α) :
    (lastN n l).length = min l.length n := by
  simp [lastN]; omega

theorem lastN_of_le {n : Nat} {l : List α} (h : l.length ≤ n) :
    lastN n l = l := by
  unfold lastN
  have h0 : l.length - n = 0 := by omega
  rw [h0, List.drop_zero]

theorem pushTurn_eq (h : List ConversationTurn) (t : ConversationTurn) :
    pushTurn h t = lastN 10 (h ++ [t]) := by
  simp only [pushTurn, lastN]
  split
  · rfl
  · next hle =>
    have h0 : (h ++ [t]).length - 10 = 0 := by
      simp only [List.length_append, List.length_singleton]
      simp only [List.length_append, List.length_singleton, gt_iff_lt,
        not_lt] at hle
      omega
    rw [h0, List.drop_zero]

theorem lastN_append (n : Nat) (xs ys : List α) :
    lastN n (lastN n xs ++ ys) = lastN n (xs ++ ys) := by
  unfold lastN
  rcases Nat.le_total xs.length n with hle | hge
  · have h0 : xs.length - n = 0 := by omega
    rw [h0, List.drop_zero]
  · have e1 : (xs.drop (xs.length - n) ++ ys).length - n = ys.length := by
      simp [List.length_drop]; omega
    rw [e1, List.drop_append_eq_append_drop, List.drop_drop,
      List.drop_append_eq_append_drop]
    congr 1
    · congr 1
      simp [List.length_append]
      omega
    · congr 1
      simp [List.length_drop, List.length_append]
      omega

theorem lastN_lastN {m n : Nat} (hmn : m ≤ n) (l : List α) :
    lastN m (lastN n l) = lastN m l := by
  unfold lastN
  rw [List.drop_drop]
  congr 1
  simp [List.length_drop]
  omega

theorem lastN_isEmpty {n : Nat} (hn : 0 < n) (l : List α) :
    (lastN n l).isEmpty = l.isEmpty := by
  cases l with
  | nil => simp [lastN]
  | cons a t =>
    have hlen := lastN_length n (a :: t)
    have hne : (lastN n (a :: t)).length ≠ 0 := by
      rw [hlen]; simp; omega
    cases hL : lastN n (a :: t) with
    | nil => rw [hL] at hne; simp at hne
    | cons b u => simp [List.isEmpty]

theorem mem_lastN_append_last {n : Nat} (hn : 1 ≤ n) (xs : List α) (u : α) :
    u ∈ lastN n (xs ++ [u]) := by
  unfold lastN
  rw [List.drop_append_eq_append_drop]
  have h0 : ((xs ++ [u]).length - n) - xs.length = 0 := by
    simp [List.length_append]; omega
  rw [h0, List.drop_zero]
  exact List.mem_append_right _ (by simp)

theorem mem_lastN_append_pair {n : Nat} (hn : 2 ≤ n) (xs : List α) (u a : α) :
    u ∈ lastN n (xs ++ [u, a]) := by
  unfold lastN
  rw [List.drop_append_eq_append_drop]
  have h0 : ((xs ++ [u, a]).length - n) - xs.length = 0 := by
    simp [List.length_append]; omega
  rw [h0, List.drop_zero]
  exact List.mem_append_right _ (by simp)

/-! ## Lemmas about the session store operations -/

theorem setSession_same (store : Store) (sid : String) (s : Session) :
    setSession store sid s sid = some s := by
  simp [setSession]

theorem add_turn_get_of_some {store : Store} {sid : String} {s : Session}
    (h : store sid = some s) (role content : String) (now : Nat) :
    (add_conversation_turn store sid role content now) sid =
      some { s with
              conversation_history :=
                lastN 10 (s.conversation_history ++
                  [{ role := role, content := content, timestamp := now }])
              last_updated := now } := by
  simp [add_conversation_turn, ensureGet, h, setSession, pushTurn_eq]

theorem add_turn_get_of_none {store : Store} {sid : String}
    (h : store sid = none) (role content : String) (now : Nat) :
    (add_conversation_turn store sid role content now) sid =
      some { freshSession sid now with
              conversation_history :=
                [{ role := role, content := content, timestamp := now }]
              last_updated := now } := by
  simp [add_conversation_turn, ensureGet, h, setSession, pushTurn_eq,
    freshSession]
  rfl

theorem add_turn_get (store : Store) (sid role content : String) (now : Nat) :
    (add_conversation_turn store sid role content now) sid =
      some { (ensureGet store sid now).1 with
              conversation_history :=
                lastN 10 ((ensureGet store sid now).1.conversation_history ++
                  [{ role := role, content := content, timestamp := now }])
              last_updated := now } := by
  simp [add_conversation_turn, setSession, pushTurn_eq]

theorem process_speech_accepted_flags (threshold : ℚ) (store : Store)
    (speech : SpeechInput) (memories : List MemoryRecord)
    (chatResult : Option String) (now : Nat)
    (hnl : ¬ speech.confidence < threshold) :
    (process_speech threshold store speech memories chatResult now).memory_called
        = true ∧
    (process_speech threshold store speech memories chatResult now).llm_called
        = true := by
  unfold process_speech
  rw [if_neg hnl]
  rcases generate_structured chatResult with _ | out
  · exact ⟨rfl, rfl⟩
  · by_cases ht : out.truthy = false
    · simp [ht]
    · simp only [ht, if_false, Bool.false_eq_true]
      cases out <;> simp

theorem process_speech_accepted_store (threshold : ℚ) (store : Store)
    (speech : SpeechInput) (memories : List MemoryRecord)
    (chatResult : Option String) (now : Nat)
    (hnl : ¬ speech.confidence < threshold) :
    ∃ s, (process_speech threshold store speech memories chatResult now).store
            speech.session_id = some s ∧
      ({ role := "user", content := speech.text, timestamp := now } :
          ConversationTurn) ∈ s.conversation_history := by
  have hadd := add_turn_get store speech.session_id "user" speech.text now
  unfold process_speech
  rw [if_neg hnl]
  simp only [build_llm_context, ensureGet, hadd]
  rcases generate_structured chatResult with _ | out
  · exact ⟨_, hadd, mem_lastN_append_last (by omega) _ _⟩
  · by_cases ht : out.truthy = false
    · simp only [ht, if_true]
      exact ⟨_, hadd, mem_lastN_append_last (by omega) _ _⟩
    · simp only [ht, if_false, Bool.false_eq_true]
      cases out with
      | obj fields =>
        have hadd2 := add_turn_get_of_some hadd "assistant"
          (pyJsonToStr ((jget fields "response").getD (Json.str apology_text)))
          now
        refine ⟨_, hadd2, ?_⟩
        simp only [lastN_append, List.append_assoc, List.singleton_append]
        exact mem_lastN_append_pair (by omega) _ _ _
      | null => exact ⟨_, hadd, mem_lastN_append_last (by omega) _ _⟩
      | bool b => exact ⟨_, hadd, mem_lastN_append_last (by omega) _ _⟩
      | num m e => exact ⟨_, hadd, mem_lastN_append_last (by omega) _ _⟩
      | str s => exact ⟨_, hadd, mem_lastN_append_last (by omega) _ _⟩
      | arr xs => exact ⟨_, hadd, mem_lastN_append_last (by omega) _ _⟩

/-! ## C2 -/

/-- C2: for a request with confidence strictly below the threshold,
`process_speech` returns the fixed clarification payload with intent
"clarification" and no navigation, makes no memory-retrieval or LLM call,
and leaves the session store — hence every conversation history —
unchanged. -/
theorem speech_below_threshold_clarifies (threshold : ℚ) (store : Store)
    (speech : SpeechInput) (memories : List MemoryRecord)
    (chatResult : Option String) (now : Nat)
    (h : speech.confidence < threshold) :
    process_speech threshold store speech memories chatResult now =
      { result := Except.ok
          { session_id := speech.session_id
            response_text := clarification_text
            intent := "clarification"
            should_navigate := false
            navigation_goal := none }
        store := store
        memory_called := false
        llm_called := false } := by
  simp [process_speech, h]

/-- Witness for C2 at a concrete rejected request. -/
theorem speech_below_threshold_clarifies_witness :
    (0 : ℚ) < 1 / 2 ∧
    process_speech (1 / 2) (fun _ => none)
        { session_id := "s1", text := "hello", confidence := 0 } [] none 0 =
      { result := Except.ok
          { session_id := "s1"
            response_text := clarification_text
            intent := "clarification"
            should_navigate := false
            navigation_goal := none }
        store := fun _ => none
        memory_called := false
        llm_called := false } :=
  ⟨by norm_num,
   speech_below_threshold_clarifies (1 / 2) (fun _ => none)
     { session_id := "s1", text := "hello", confidence := 0 } [] none 0
     (by norm_num)⟩

/-! ## C9 -/

/-- C9: a request whose confidence equals the threshold exactly is
accepted by the confidence gate (only strictly smaller confidences are
rejected): the memory and LLM gateways are both invoked and the user's
turn is appended to the session's conversation history. -/
theorem speech_at_threshold_processes (threshold : ℚ) (store : Store)
    (speech : SpeechInput) (memories : List MemoryRecord)
    (chatResult : Option String) (now : Nat)
    (h : speech.confidence = threshold) :
    (process_speech threshold store speech memories chatResult now).memory_called
        = true ∧
    (process_speech threshold store speech memories chatResult now).llm_called
        = true ∧
    ∃ s, (process_speech threshold store speech memories chatResult now).store
            speech.session_id = some s ∧
      ({ role := "user", content := speech.text, timestamp := now } :
          ConversationTurn) ∈ s.conversation_history := by
  have hnl : ¬ speech.confidence < threshold := by rw [h]; exact lt_irrefl _
  obtain ⟨hm, hl⟩ :=
    process_speech_accepted_flags threshold store speech memories chatResult now hnl
  exact ⟨hm, hl,
    process_speech_accepted_store threshold store speech memories chatResult now hnl⟩

/-- Witness for C9 at a concrete boundary-value request. -/
theorem speech_at_threshold_processes_witness :
    (process_speech (1 / 2) (fun _ => none)
        { session_id := "s1", text := "hi", confidence := 1 / 2 }
        [] none 0).memory_called = true ∧
    (process_speech (1 / 2) (fun _ => none)
        { session_id := "s1", text := "hi", confidence := 1 / 2 }
        [] none 0).llm_called = true ∧
    ∃ s, (process_speech (1 / 2) (fun _ => none)
        { session_id := "s1", text := "hi", confidence := 1 / 2 }
        [] none 0).store "s1" = some s ∧
      ({ role := "user", content := "hi", timestamp := 0 } :
          ConversationTurn) ∈ s.conversation_history :=
  speech_at_threshold_processes (1 / 2) (fun _ => none)
    { session_id := "s1", text := "hi", confidence := 1 / 2 } [] none 0 rfl

/-! ## C10 -/

theorem alookup_append (a b : List (String × String)) (k : String) :
    alookup (a ++ b) k =
      match alookup a k with
      | some v => some v
      | none => alookup b k := by
  induction a with
  | nil => simp [alookup]
  | cons kv rest ih =>
    obtain ⟨k', v⟩ := kv
    by_cases hk : k' = k
    · simp [alookup, hk]
    · simp [alookup, hk, ih]

theorem alookup_filter_isNone (d p : List (String × String)) (k : String)
    (h : alookup p k = none) :
    alookup (p.filter (fun kv => (alookup d kv.1).isNone)) k = none := by
  induction p with
  | nil => simp [alookup]
  | cons kv rest ih =>
    obtain ⟨k', v⟩ := kv
    by_cases hk : k' = k
    · simp [alookup, hk] at h
    · have h' : alookup rest k = none := by simpa [alookup, hk] using h
      by_cases hf : (alookup d k').isNone
      · simp [List.filter, hf, alookup, hk, ih h']
      · simp [List.filter, hf, ih h']

theorem alookup_map_update (d p : List (String × String)) (k : String)
    (h : alookup p k = none) :
    alookup (d.map (fun kv =>
        match alookup p kv.1 with
        | some w => (kv.1, w)
        | none => kv)) k = alookup d k := by
  induction d with
  | nil => simp [alookup]
  | cons kv rest ih =>
    obtain ⟨k', v⟩ := kv
    by_cases hk : k' = k
    · subst hk
      simp [alookup, h]
    · cases hc : alookup p k' with
      | none => simp [alookup, hc, hk, ih]
      | some w => simp [alookup, hc, hk, ih]

theorem alookup_dictUpdate (d p : List (String × String)) (k : String)
    (h : alookup p k = none) :
    alookup (dictUpdate d p) k = alookup d k := by
  unfold dictUpdate
  rw [alookup_append, alookup_map_update d p k h, alookup_filter_isNone d p k h]
  cases alookup d k <;> simp

/-- C10: every mutation of an existing session rewrites only its target
fields and `last_updated`: the updated session is the old record with
exactly those fields replaced (so `session_id`, `created_at` and all other
fields are unchanged), and merging a partial environment map preserves
every key the partial map does not mention. -/
theorem session_mutations_frame (store : Store) (sid : String) (s : Session)
    (stuId stuName loc role content : String)
    (p : List (String × String)) (now : Nat)
    (h : store sid = some s) :
    (update_student_identity store sid stuId stuName now) sid =
      some { s with
              student_id := some stuId
              student_name := some stuName
              last_updated := now } ∧
    (update_location store sid loc now) sid =
      some { s with current_location := some loc, last_updated := now } ∧
    (update_environment store sid p now) sid =
      some { s with
              environment_info := dictUpdate s.environment_info p
              last_updated := now } ∧
    (∀ k, alookup p k = none →
      alookup (dictUpdate s.environment_info p) k =
        alookup s.environment_info k) ∧
    (add_conversation_turn store sid role content now) sid =
      some { s with
              conversation_history :=
                lastN 10 (s.conversation_history ++
                  [{ role := role, content := content, timestamp := now }])
              last_updated := now } := by
  refine ⟨?_, ?_, ?_, fun k hk => alookup_dictUpdate _ _ _ hk, ?_⟩
  · simp [update_student_identity, ensureGet, h, setSession]
  · simp [update_location, ensureGet, h, setSession]
  · simp [update_environment, ensureGet, h, setSession]
  · exact add_turn_get_of_some h role content now

/-- Witness for C10 at a concrete existing session. -/
theorem session_mutations_frame_witness :
    (update_student_identity
        (setSession (fun _ => none) "s1" (freshSession "s1" 0))
        "s1" "id7" "mina" 3) "s1" =
      some { freshSession "s1" 0 with
              student_id := some "id7"
              student_name := some "mina"
              last_updated := 3 } ∧
    (update_location (setSession (fun _ => none) "s1" (freshSession "s1" 0))
        "s1" "library" 3) "s1" =
      some { freshSession "s1" 0 with
              current_location := some "library"
              last_updated := 3 } ∧
    (update_environment (setSession (fun _ => none) "s1" (freshSession "s1" 0))
        "s1" [("temp", "hot")] 3) "s1" =
      some { freshSession "s1" 0 with
              environment_info :=
                dictUpdate (freshSession "s1" 0).environment_info
                  [("temp", "hot")]
              last_updated := 3 } ∧
    (∀ k, alookup [("temp", "hot")] k = none →
      alookup (dictUpdate (freshSession "s1" 0).environment_info
          [("temp", "hot")]) k =
        alookup (freshSession "s1" 0).environment_info k) ∧
    (add_conversation_turn
        (setSession (fun _ => none) "s1" (freshSession "s1" 0))
        "s1" "user" "hello" 3) "s1" =
      some { freshSession "s1" 0 with
              conversation_history :=
                lastN 10 ((freshSession "s1" 0).conversation_history ++
                  [{ role := "user", content := "hello", timestamp := 3 }])
              last_updated := 3 } :=
  session_mutations_frame (setSession (fun _ => none) "s1" (freshSession "s1" 0))
    "s1" (freshSession "s1" 0) "id7" "mina" "library" "user" "hello"
    [("temp", "hot")] 3 rfl

/-! ## C3 -/

theorem appendTurns_history (sid : String) :
    ∀ (items : List (String × String × Nat)) (store : Store) (s : Session),
      store sid = some s → s.conversation_history.length ≤ 10 →
      ∃ s', appendTurns store sid items sid = some s' ∧
        s'.conversation_history =
          lastN 10 (s.conversation_history ++ items.map mkTurn) := by
  intro items
  induction items with
  | nil =>
    intro store s h hle
    refine ⟨s, by simpa [appendTurns] using h, ?_⟩
    rw [List.map_nil, List.append_nil, lastN_of_le hle]
  | cons it rest ih =>
    intro store s h hle
    have h1 := add_turn_get_of_some h it.1 it.2.1 it.2.2
    have hlen :
        (lastN 10 (s.conversation_history ++
          [{ role := it.1, content := it.2.1, timestamp := it.2.2 }])).length
            ≤ 10 := by
      rw [lastN_length]; omega
    obtain ⟨s', hs', hist⟩ := ih _ _ h1 hlen
    refine ⟨s', ?_, ?_⟩
    · simpa [appendTurns, List.foldl_cons] using hs'
    · rw [hist]
      simp only []
      rw [lastN_append]
      simp [mkTurn, List.append_assoc]

/-- C3: starting from a session whose history is empty (every session is
created empty; an absent session is created on first append), a sequence
of N `add_conversation_turn` calls leaves exactly the most recent
min(N, 10) turns, in insertion order, with the oldest turns evicted
first. -/
theorem appendTurns_fifo (store : Store) (sid : String)
    (items : List (String × String × Nat))
    (hempty : match store sid with
              | none => True
              | some s => s.conversation_history = [])
    (hne : items ≠ []) :
    ∃ s', appendTurns store sid items sid = some s' ∧
      s'.conversation_history =
        (items.map mkTurn).drop (items.length - 10) ∧
      s'.conversation_history.length = min items.length 10 := by
  have main :
      ∃ s', appendTurns store sid items sid = some s' ∧
        s'.conversation_history = lastN 10 (items.map mkTurn) := by
    cases hstore : store sid with
    | some s =>
      rw [hstore] at hempty
      obtain ⟨s', hs', hist⟩ :=
        appendTurns_history sid items store s hstore (by rw [hempty]; simp)
      exact ⟨s', hs', by rwa [hempty, List.nil_append] at hist⟩
    | none =>
      cases items with
      | nil => exact absurd rfl hne
      | cons it rest =>
        have h1 := add_turn_get_of_none hstore it.1 it.2.1 it.2.2
        have hlen1 :
            (({ freshSession sid it.2.2 with
                conversation_history :=
                  [{ role := it.1, content := it.2.1, timestamp := it.2.2 }]
                last_updated := it.2.2 } : Session)).conversation_history.length
              ≤ 10 := by simp
        obtain ⟨s', hs', hist⟩ :=
          appendTurns_history sid rest _ _ h1 hlen1
        refine ⟨s', by simpa [appendTurns, List.foldl_cons] using hs', ?_⟩
        rw [hist]
        simp [mkTurn]
  obtain ⟨s', hs', hist⟩ := main
  refine ⟨s', hs', ?_, ?_⟩
  · rw [hist]
    unfold lastN
    rw [List.length_map]
  · rw [hist, lastN_length, List.length_map]

/-- Witness for C3: twelve appended turns leave exactly the last ten. -/
theorem appendTurns_fifo_witness :
    ∃ s', appendTurns (fun _ => none) "s1"
        (((List.range 12).map (fun i => ("user", toString i, i)))) "s1" =
          some s' ∧
      s'.conversation_history =
        ((((List.range 12).map (fun i => ("user", toString i, i)))).map
            mkTurn).drop
          ((((List.range 12).map (fun i => ("user", toString i, i)))).length
            - 10) ∧
      s'.conversation_history.length =
        min (((List.range 12).map (fun i => ("user", toString i, i)))).length
          10 :=
  appendTurns_fifo (fun _ => none) "s1"
    ((List.range 12).map (fun i => ("user", toString i, i)))
    trivial (by simp [List.range_succ])

/-! ## C4 -/

/-- Spec-side navigation rule, stated from the claim's words: navigate
exactly when the intent is "navigation" and a non-empty location is
present, in which case the goal carries that location and priority
"normal". -/
def resolve_navigation_spec (intent : String) (location : Option String) :
    Bool × Option NavigationGoal :=
  match location with
  | some l =>
    if intent = "navigation" ∧ l ≠ "" then
      (true, some { target_location := Json.str l, priority := "normal" })
    else (false, none)
  | none => (false, none)

/-- C4: on every parsed output whose fields lie in the declared schema
(string intent, optional string location), the navigation decision of the
source equals the claim's rule: `should_navigate` is true with goal
`(location, "normal")` exactly when the intent is "navigation" and the
location is present and non-empty; every other combination — including
"navigation" with an empty location and "conversation" with a location —
yields false and no goal. -/
theorem resolve_navigation_correct (intent : String)
    (location : Option String) :
    resolve_navigation (Json.str intent) (location.map Json.str) =
      resolve_navigation_spec intent location := by
  cases location with
  | none => rfl
  | some l =>
    by_cases h1 : intent = "navigation" <;> by_cases h2 : l = "" <;>
      simp [resolve_navigation, resolve_navigation_spec, Json.truthy, h1, h2]

/-! ## C5 -/

/-- C5 (code evaluated at the failing input): for a session created fresh
whose student name was never set, the rendered prompt is NOT missing the
identity greeting — it consists of the single line
"คุณกำลังพูดคุยกับ None", because `ctx.get("student_id", "unknown")`
never falls back to the "unknown" sentinel (the key exists with value
`None`) and the renderer only skips the literal "unknown".  The
current-location line, by contrast, is correctly omitted (`None` is
falsy). -/
theorem prompt_renders_none_greeting :
    prompt_parts (buildFromSession (freshSession "s1" 0) []) =
      ["คุณกำลังพูดคุยกับ None"] ∧
    format_context_as_prompt (buildFromSession (freshSession "s1" 0) []) =
      "คุณกำลังพูดคุยกับ None" := by
  constructor <;> rfl

/-! ## C8 -/

theorem enum_map_map (l : List α) (f : α → β) (g : Nat × β → γ) :
    ((l.map f).enum).map g = l.enum.map (fun p => g (p.1, f p.2)) := by
  rw [List.enum_map, List.map_map]
  rfl

/-- Spec-side rendering of the prompt, stated with the truncation points
collapsed as the claim describes them: the memory block numbers every one
of the (at most three) retained records, and the conversation block
renders the last three turns of the full history (equal to the last three
of the five retained ones). -/
def c8_prompt_spec (s : Session) (mems : List MemoryRecord) : List String :=
  (if s.student_name ≠ some "unknown" then
      ["คุณกำลังพูดคุยกับ " ++ pyStrOfOpt s.student_name]
    else []) ++
  (match s.current_location with
   | none => []
   | some l =>
     if l ≠ "" ∧ l ≠ "unknown" then ["ตำแหน่งปัจจุบัน: " ++ l] else []) ++
  (if mems.isEmpty then []
   else "\nความทรงจำที่เกี่ยวข้อง:" ::
     ((mems.take 3).map MemoryRecord.text).enum.map
       (fun pr => toString (pr.1 + 1) ++ ". " ++ pr.2)) ++
  (if s.conversation_history.isEmpty then []
   else "\nบทสนทนาล่าสุด:" ::
     (lastN 3 s.conversation_history).map fmtTurnLine)

/-- C8: the three truncation points are applied independently and exactly:
`build_llm_context` keeps the last 5 history turns and the first 3 records
of the ranked memory list in order (truncation without re-ranking), and
the renderer folds only the last 3 of those 5 retained turns into the
prompt (equal to the last 3 of the full history) while numbering all
retained memory records. -/
theorem build_and_render_truncations (s : Session) (mems : List MemoryRecord) :
    (buildFromSession s mems).conversation_history =
      lastN 5 s.conversation_history ∧
    (buildFromSession s mems).relevant_memories =
      (mems.take 3).map (fun m =>
        { content := m.text
          relevance_score := m.score
          memtype := m.memory_type }) ∧
    prompt_parts (buildFromSession s mems) = c8_prompt_spec s mems := by
  have hD : (lastN 5 s.conversation_history).isEmpty =
      s.conversation_history.isEmpty := lastN_isEmpty (by omega) _
  have hD2 : lastN 3 (lastN 5 s.conversation_history) =
      lastN 3 s.conversation_history := lastN_lastN (by omega) _
  refine ⟨rfl, ?_, ?_⟩
  · cases mems <;> rfl
  · cases mems with
    | nil =>
      simp [prompt_parts, c8_prompt_spec, buildFromSession, hD, hD2]
    | cons m ms =>
      simp only [prompt_parts, c8_prompt_spec, buildFromSession, hD, hD2,
        List.isEmpty_cons, Bool.false_eq_true, if_false]
      rw [enum_map_map, enum_map_map]
      rfl

/-! ## C1 -/

/-- C1 counterexample: at a concrete accepted request, a silent gateway
(`chatResult = none`) makes `/speech/input` fail with HTTP 500, and so
does undecodable gateway output — no apology payload with intent
"conversation" is returned; the failure escapes to the caller as an
error. -/
theorem speech_llm_failure_500_concrete :
    (process_speech 0 (fun _ => none)
        { session_id := "s1", text := "hello", confidence := 1 }
        [] none 0).result = Except.error 500 ∧
    (process_speech 0 (fun _ => none)
        { session_id := "s1", text := "hello", confidence := 1 }
        [] (some "not json") 0).result = Except.error 500 := by
  constructor <;> rfl

/-- C1 amended: for every accepted request, whenever the gateway yields no
structured output (it returned nothing, or its output failed JSON
decoding), `process_speech` raises an internal error that reaches the
caller as HTTP 500; no apology payload is produced on this path (the fixed
apology text is used only when a successfully parsed object lacks the
"response" key). -/
theorem speech_llm_failure_500 (threshold : ℚ) (store : Store)
    (speech : SpeechInput) (memories : List MemoryRecord)
    (chatResult : Option String) (now : Nat)
    (hacc : ¬ speech.confidence < threshold)
    (hfail : generate_structured chatResult = none) :
    (process_speech threshold store speech memories chatResult now).result =
      Except.error 500 := by
  unfold process_speech
  rw [if_neg hacc]
  simp only [hfail]

/-- Witness for the amended C1. -/
theorem speech_llm_failure_500_witness :
    ¬ ((1 : ℚ) < 0) ∧ generate_structured none = none ∧
    (process_speech 0 (fun _ => none)
        { session_id := "s2", text := "hey", confidence := 1 }
        [] none 0).result = Except.error 500 :=
  ⟨by norm_num, rfl,
   speech_llm_failure_500 0 (fun _ => none)
     { session_id := "s2", text := "hey", confidence := 1 } [] none 0
     (by norm_num) rfl⟩

/-! ## C7 -/

/-- C7 counterexample: with the gate accepting, the entire orchestration
outcome (HTTP result, session store, effect flags) for a gateway that
returns nothing is identical to the outcome for a gateway that returns
undecodable text — both collapse to `generate_structured = none`, so the
two failures are not observably distinct at the orchestration layer. -/
theorem speech_failures_indistinguishable_concrete :
    generate_structured none = none ∧
    generate_structured (some "this is not json") = none ∧
    process_speech 0 (fun _ => none)
        { session_id := "s1", text := "hello", confidence := 1 }
        [] none 0 =
      process_speech 0 (fun _ => none)
        { session_id := "s1", text := "hello", confidence := 1 }
        [] (some "this is not json") 0 :=
  ⟨rfl, rfl, rfl⟩

/-- C7 amended: the orchestrator does not distinguish "no response" from
"malformed response": `generate_structured` returns `none` for both, and
any gateway text that fails decoding produces exactly the same outcome as
a silent gateway on every input. -/
theorem speech_failures_collapse (threshold : ℚ) (store : Store)
    (speech : SpeechInput) (memories : List MemoryRecord) (raw : String)
    (now : Nat) (hfail : generate_structured (some raw) = none) :
    process_speech threshold store speech memories (some raw) now =
      process_speech threshold store speech memories none now := by
  unfold process_speech
  split
  · rfl
  · rw [hfail]
    rfl

/-- Witness for the amended C7. -/
theorem speech_failures_collapse_witness :
    generate_structured (some "garbage") = none ∧
    process_speech 0 (fun _ => none)
        { session_id := "s3", text := "hi", confidence := 1 }
        [] (some "garbage") 0 =
      process_speech 0 (fun _ => none)
        { session_id := "s3", text := "hi", confidence := 1 }
        [] none 0 :=
  ⟨rfl,
   speech_failures_collapse 0 (fun _ => none)
     { session_id := "s3", text := "hi", confidence := 1 } [] "garbage" 0 rfl⟩

/-! ## C6: lemmas about the split/strip primitives -/

theorem isPrefixOf_length_le {u v : List Char} (h : u.isPrefixOf v = true) :
    u.length ≤ v.length :=
  (List.isPrefixOf_iff_prefix.mp h).length_le

theorem isPrefixOf_append_self (u v : List Char) :
    u.isPrefixOf (u ++ v) = true :=
  List.isPrefixOf_iff_prefix.mpr (List.prefix_append u v)

theorem firstOcc_some_bound {c : Char} {cs s : List Char} {i : Nat}
    (h : firstOcc c cs s = some i) : i + (cs.length + 1) ≤ s.length := by
  induction s generalizing i with
  | nil => simp [firstOcc] at h
  | cons a t ih =>
    by_cases hp : (c :: cs).isPrefixOf (a :: t) = true
    · have h0 : i = 0 := by
        simp [firstOcc, hp] at h
        omega
      subst h0
      have := isPrefixOf_length_le hp
      simp only [List.length_cons] at this ⊢
      omega
    · have hp' : (c :: cs).isPrefixOf (a :: t) = false :=
        Bool.eq_false_iff.mpr hp
      simp only [firstOcc, hp', Bool.false_eq_true, if_false,
        Option.map_eq_some'] at h
      obtain ⟨j, hj, hji⟩ := h
      have := ih hj
      simp only [List.length_cons]
      omega

theorem firstOcc_cons_mismatch {c a : Char} {cs t : List Char}
    (h : (c :: cs).isPrefixOf (a :: t) = false) :
    firstOcc c cs (a :: t) = (firstOcc c cs t).map (· + 1) := by
  simp [firstOcc, h]

theorem firstOcc_cons_self (c : Char) (cs t : List Char) :
    firstOcc c cs ((c :: cs) ++ t) = some 0 := by
  have hpre := isPrefixOf_append_self (c :: cs) t
  rw [List.cons_append] at hpre ⊢
  simp [firstOcc, hpre]

theorem firstOcc_self (c : Char) (cs : List Char) :
    firstOcc c cs (c :: cs) = some 0 := by
  have := firstOcc_cons_self c cs []
  simpa using this

theorem firstOcc_cons_ne {c a : Char} (cs t : List Char) (h : a ≠ c) :
    firstOcc c cs (a :: t) = (firstOcc c cs t).map (· + 1) := by
  have hne : (c == a) = false := by
    simp [Ne.symm h]
  apply firstOcc_cons_mismatch
  simp [List.isPrefixOf, hne]

theorem firstOcc_cons_none {c a : Char} {cs t : List Char}
    (h : firstOcc c cs (a :: t) = none) :
    (c :: cs).isPrefixOf (a :: t) = false ∧ firstOcc c cs t = none := by
  by_cases hp : (c :: cs).isPrefixOf (a :: t) = true
  · simp [firstOcc, hp] at h
  · have hp' : (c :: cs).isPrefixOf (a :: t) = false :=
      Bool.eq_false_iff.mpr hp
    refine ⟨hp', ?_⟩
    simpa [firstOcc, hp'] using h

theorem isPrefixOf_append_elem {sep t v : List Char} {b : Char}
    (hb : b ∉ sep) (h : sep.isPrefixOf (t ++ b :: v) = true) :
    sep.isPrefixOf t = true := by
  induction sep generalizing t with
  | nil => simp [List.isPrefixOf]
  | cons c cs ih =>
    cases t with
    | nil =>
      simp only [List.nil_append, List.isPrefixOf, Bool.and_eq_true] at h
      have hcb : c = b := by simpa using h.1
      exact absurd (by rw [← hcb]; exact List.mem_cons_self c cs) hb
    | cons x t' =>
      simp only [List.cons_append, List.isPrefixOf, Bool.and_eq_true] at h ⊢
      exact ⟨h.1, ih (fun hm => hb (List.mem_cons_of_mem c hm)) h.2⟩

theorem isPrefixOf_of_append_isPrefixOf {u w z : List Char}
    (h : (u ++ w).isPrefixOf z = true) : u.isPrefixOf z = true := by
  rw [List.isPrefixOf_iff_prefix] at h ⊢
  exact (List.prefix_append u w).trans h

theorem firstOcc_ext_none {c : Char} {cs ext P : List Char}
    (h : firstOcc c cs P = none) : firstOcc c (cs ++ ext) P = none := by
  induction P with
  | nil => rfl
  | cons a t ih =>
    obtain ⟨hp, ht⟩ := firstOcc_cons_none h
    have hp' : (c :: (cs ++ ext)).isPrefixOf (a :: t) = false := by
      by_cases hq : (c :: (cs ++ ext)).isPrefixOf (a :: t) = true
      · have hq' : (c :: cs).isPrefixOf (a :: t) = true := by
          rw [← List.cons_append] at hq
          exact isPrefixOf_of_append_isPrefixOf hq
        simp [hq'] at hp
      · exact Bool.eq_false_iff.mpr hq
    simp [firstOcc, hp', ih ht]

theorem firstOcc_append_elem {c : Char} {cs P v : List Char} {b : Char}
    (hb : b ∉ c :: cs) (hP : firstOcc c cs P = none) :
    firstOcc c cs (P ++ b :: v) =
      (firstOcc c cs v).map (· + (P.length + 1)) := by
  induction P with
  | nil =>
    have hbc : b ≠ c := fun he =>
      hb (by rw [he]; exact List.mem_cons_self c cs)
    rw [List.nil_append, firstOcc_cons_ne cs v hbc]
    cases firstOcc c cs v <;> simp
  | cons a P' ih =>
    obtain ⟨hp, ht⟩ := firstOcc_cons_none hP
    have hne : (c :: cs).isPrefixOf (a :: (P' ++ b :: v)) = false := by
      by_cases hq : (c :: cs).isPrefixOf (a :: (P' ++ b :: v)) = true
      · have := isPrefixOf_append_elem hb (by rw [List.cons_append]; exact hq)
        simp [this] at hp
      · exact Bool.eq_false_iff.mpr hq
    rw [List.cons_append, firstOcc_cons_mismatch hne, ih ht, Option.map_map]
    cases firstOcc c cs v with
    | none => rfl
    | some j =>
      simp only [Option.map_some', Function.comp_apply, List.length_cons,
        Option.some.injEq]
      omega

theorem splitGo_fuel_eq (c : Char) (cs : List Char) :
    ∀ (f g : Nat) (s : List Char), s.length < f → s.length < g →
      splitGo f c cs s = splitGo g c cs s := by
  intro f
  induction f with
  | zero => intro g s hf hg; exact absurd hf (by omega)
  | succ f' ih =>
    intro g s hf hg
    cases g with
    | zero => exact absurd hg (by omega)
    | succ g' =>
      simp only [splitGo]
      cases ho : firstOcc c cs s with
      | none => rfl
      | some i =>
        have hbnd := firstOcc_some_bound ho
        have ht : (s.drop (i + (cs.length + 1))).length < f' := by
          simp only [List.length_drop]; omega
        have ht' : (s.drop (i + (cs.length + 1))).length < g' := by
          simp only [List.length_drop]; omega
        show List.take i s :: splitGo f' c cs (s.drop (i + (cs.length + 1))) =
          List.take i s :: splitGo g' c cs (s.drop (i + (cs.length + 1)))
        rw [ih g' _ ht ht']

theorem pySplitL_eq (c : Char) (cs : List Char) (s : List Char) :
    pySplitL c cs s =
      match firstOcc c cs s with
      | none => [s]
      | some i => s.take i :: pySplitL c cs (s.drop (i + (cs.length + 1))) := by
  unfold pySplitL
  simp only [splitGo]
  cases ho : firstOcc c cs s with
  | none => rfl
  | some i =>
    have hbnd := firstOcc_some_bound ho
    show List.take i s :: splitGo s.length c cs (s.drop (i + (cs.length + 1))) =
      List.take i s :: pySplitL c cs (s.drop (i + (cs.length + 1)))
    unfold pySplitL
    congr 1
    exact splitGo_fuel_eq c cs s.length _ _
      (by simp only [List.length_drop]; omega)
      (by omega)

theorem pySplitL_none {c : Char} {cs s : List Char}
    (h : firstOcc c cs s = none) : pySplitL c cs s = [s] := by
  rw [pySplitL_eq, h]

theorem pySplitL_sep_head (c : Char) (cs t : List Char) :
    pySplitL c cs ((c :: cs) ++ t) = [] :: pySplitL c cs t := by
  rw [pySplitL_eq, firstOcc_cons_self]
  simp only [List.take_zero]
  congr 1
  exact congrArg _ (List.drop_left' (by simp [Nat.add_comm]))

theorem ltrimL_cons_nl (x : List Char) : ltrimL ('\n' :: x) = ltrimL x := by
  simp [ltrimL, List.dropWhile_cons, isWsChar]

theorem rtrimL_append_nl (z : List Char) : rtrimL (z ++ ['\n']) = rtrimL z := by
  simp [rtrimL, List.reverse_append, List.dropWhile_cons, isWsChar]

theorem trimL_wrap (x : List Char) :
    trimL ('\n' :: (x ++ ['\n'])) = trimL x := by
  unfold trimL
  rw [ltrimL_cons_nl]
  have hsplit : ltrimL (x ++ ['\n']) =
      if (ltrimL x).isEmpty then ltrimL ['\n'] else ltrimL x ++ ['\n'] := by
    simp [ltrimL, List.dropWhile_append]
  rw [hsplit]
  by_cases hx : (ltrimL x).isEmpty
  · have hxe : ltrimL x = [] := by
      cases hE : ltrimL x with
      | nil => rfl
      | cons y ys => rw [hE] at hx; simp at hx
    rw [if_pos hx, hxe]
    simp [ltrimL, isWsChar, rtrimL]
  · rw [if_neg hx]
    exact rtrimL_append_nl _

theorem firstOcc_json_of_three_none {L : List Char}
    (h3 : firstOcc '`' ['`', '`'] L = none) :
    firstOcc '`' ['`', '`', 'j', 's', 'o', 'n'] L = none :=
  @firstOcc_ext_none '`' ['`', '`'] ['j', 's', 'o', 'n'] L h3

theorem fence_firstOcc_json_none {L : List Char}
    (h3 : firstOcc '`' ['`', '`'] L = none) :
    firstOcc '`' ['`', '`', 'j', 's', 'o', 'n']
      ('\n' :: (L ++ '\n' :: ['`', '`', '`'])) = none := by
  rw [firstOcc_cons_ne _ _ (by decide),
    firstOcc_append_elem (by decide) (firstOcc_json_of_three_none h3)]
  rw [show firstOcc '`' ['`', '`', 'j', 's', 'o', 'n'] ['`', '`', '`'] = none
    from by decide]
  rfl

theorem fence_firstOcc_three {L : List Char}
    (h3 : firstOcc '`' ['`', '`'] L = none) :
    firstOcc '`' ['`', '`'] ('\n' :: (L ++ '\n' :: ['`', '`', '`'])) =
      some (L.length + 2) := by
  rw [firstOcc_cons_ne _ _ (by decide),
    firstOcc_append_elem (by decide) h3, firstOcc_self]
  simp only [Option.map_some', Option.some.injEq]
  omega

theorem fence_split_three {L : List Char}
    (h3 : firstOcc '`' ['`', '`'] L = none) :
    pySplitL '`' ['`', '`'] ('\n' :: (L ++ '\n' :: ['`', '`', '`'])) =
      ['\n' :: (L ++ ['\n']), []] := by
  rw [pySplitL_eq, fence_firstOcc_three h3]
  have htake : ('\n' :: (L ++ '\n' :: ['`', '`', '`'])).take (L.length + 2) =
      '\n' :: (L ++ ['\n']) := by
    have hs : ('\n' :: (L ++ '\n' :: ['`', '`', '`'])) =
        ('\n' :: (L ++ ['\n'])) ++ ['`', '`', '`'] := by simp
    rw [hs]
    exact List.take_left' (by simp)
  have hdrop : ('\n' :: (L ++ '\n' :: ['`', '`', '`'])).drop
      (L.length + 2 + (['`', '`'].length + 1)) = [] := by
    apply List.drop_eq_nil_of_le
    simp
  show ('\n' :: (L ++ '\n' :: ['`', '`', '`'])).take (L.length + 2) ::
      pySplitL '`' ['`', '`']
        (('\n' :: (L ++ '\n' :: ['`', '`', '`'])).drop
          (L.length + 2 + (['`', '`'].length + 1))) = _
  rw [htake, hdrop, @pySplitL_none '`' ['`', '`'] [] rfl]

theorem mid_firstOcc_three_none {L : List Char}
    (h3 : firstOcc '`' ['`', '`'] L = none) :
    firstOcc '`' ['`', '`'] ('\n' :: (L ++ ['\n'])) = none := by
  rw [firstOcc_cons_ne _ _ (by decide),
    firstOcc_append_elem (by decide) h3]
  rfl

theorem bdata_json_none {L : List Char}
    (h3 : firstOcc '`' ['`', '`'] L = none) :
    firstOcc '`' ['`', '`', 'j', 's', 'o', 'n']
      ('`' :: '`' :: '`' :: '\n' :: (L ++ '\n' :: ['`', '`', '`'])) = none := by
  have k1 : firstOcc '`' ['`', '`', 'j', 's', 'o', 'n']
      ('`' :: '\n' :: (L ++ '\n' :: ['`', '`', '`'])) = none := by
    have hpre : ('`' :: ['`', '`', 'j', 's', 'o', 'n']).isPrefixOf
        ('`' :: '\n' :: (L ++ '\n' :: ['`', '`', '`'])) = false := rfl
    rw [firstOcc_cons_mismatch hpre, fence_firstOcc_json_none h3]
    rfl
  have k2 : firstOcc '`' ['`', '`', 'j', 's', 'o', 'n']
      ('`' :: '`' :: '\n' :: (L ++ '\n' :: ['`', '`', '`'])) = none := by
    have hpre : ('`' :: ['`', '`', 'j', 's', 'o', 'n']).isPrefixOf
        ('`' :: '`' :: '\n' :: (L ++ '\n' :: ['`', '`', '`'])) = false := rfl
    rw [firstOcc_cons_mismatch hpre, k1]
    rfl
  have hpre : ('`' :: ['`', '`', 'j', 's', 'o', 'n']).isPrefixOf
      ('`' :: '`' :: '`' :: '\n' :: (L ++ '\n' :: ['`', '`', '`'])) = false :=
    rfl
  rw [firstOcc_cons_mismatch hpre, k2]
  rfl

/-- The fence-extraction step of `generate_structured` computed on the
three wrappings of a payload that contains no fence marker: both fenced
forms extract the stripped payload and the bare form passes through
unchanged. -/
theorem extract_response_forms (P : String)
    (hP : pyContains P "```" = false) :
    extract_response ("```json\n" ++ P ++ "\n```") = pyStrip P ∧
    extract_response ("```\n" ++ P ++ "\n```") = pyStrip P ∧
    extract_response P = P := by
  have h3 : firstOcc '`' ['`', '`'] P.data = none := by
    have h' : (firstOcc '`' ['`', '`'] P.data).isSome = false := hP
    cases ho : firstOcc '`' ['`', '`'] P.data with
    | none => rfl
    | some i => rw [ho] at h'; simp at h'
  have hAdata : ("```json\n" ++ P ++ "\n```").data =
      ('`' :: ['`', '`', 'j', 's', 'o', 'n']) ++
        ('\n' :: (P.data ++ '\n' :: ['`', '`', '`'])) := by
    rw [String.data_append, String.data_append]
    show (['`', '`', '`', 'j', 's', 'o', 'n', '\n'] ++ P.data) ++
        ['\n', '`', '`', '`'] = _
    simp
  have hBdata : ("```\n" ++ P ++ "\n```").data =
      ('`' :: ['`', '`']) ++ ('\n' :: (P.data ++ '\n' :: ['`', '`', '`'])) := by
    rw [String.data_append, String.data_append]
    show (['`', '`', '`', '\n'] ++ P.data) ++ ['\n', '`', '`', '`'] = _
    simp
  have hsp : pySplit
      (⟨'\n' :: (P.data ++ '\n' :: ['`', '`', '`'])⟩ : String) "```" =
      [⟨'\n' :: (P.data ++ ['\n'])⟩, ""] := by
    show (pySplitL '`' ['`', '`']
        ('\n' :: (P.data ++ '\n' :: ['`', '`', '`']))).map
          (fun l => (⟨l⟩ : String)) = _
    rw [fence_split_three h3]
    rfl
  have hstripM : pyStrip (⟨'\n' :: (P.data ++ ['\n'])⟩ : String) = pyStrip P := by
    show (⟨trimL ('\n' :: (P.data ++ ['\n']))⟩ : String) = ⟨trimL P.data⟩
    rw [trimL_wrap]
  refine ⟨?_, ?_, ?_⟩
  · have hcontA : pyContains ("```json\n" ++ P ++ "\n```") "```json" = true := by
      show (firstOcc '`' ['`', '`', 'j', 's', 'o', 'n']
          ("```json\n" ++ P ++ "\n```").data).isSome = true
      rw [hAdata, firstOcc_cons_self]
      rfl
    have hsplitA : pySplit ("```json\n" ++ P ++ "\n```") "```json" =
        ["", ⟨'\n' :: (P.data ++ '\n' :: ['`', '`', '`'])⟩] := by
      show (pySplitL '`' ['`', '`', 'j', 's', 'o', 'n']
          ("```json\n" ++ P ++ "\n```").data).map (fun l => (⟨l⟩ : String)) = _
      rw [hAdata, pySplitL_sep_head, pySplitL_none (fence_firstOcc_json_none h3)]
      rfl
    rw [extract_response, if_pos hcontA, hsplitA]
    show pyStrip (pyIndex (pySplit
        (⟨'\n' :: (P.data ++ '\n' :: ['`', '`', '`'])⟩ : String) "```") 0) =
      pyStrip P
    rw [hsp]
    exact hstripM
  · have hcontBjson :
        pyContains ("```\n" ++ P ++ "\n```") "```json" = false := by
      show (firstOcc '`' ['`', '`', 'j', 's', 'o', 'n']
          ("```\n" ++ P ++ "\n```").data).isSome = false
      rw [hBdata]
      rw [show ('`' :: ['`', '`']) ++
          ('\n' :: (P.data ++ '\n' :: ['`', '`', '`'])) =
          '`' :: '`' :: '`' :: '\n' :: (P.data ++ '\n' :: ['`', '`', '`'])
        from rfl]
      rw [bdata_json_none h3]
      rfl
    have hcontB3 : pyContains ("```\n" ++ P ++ "\n```") "```" = true := by
      show (firstOcc '`' ['`', '`']
          ("```\n" ++ P ++ "\n```").data).isSome = true
      rw [hBdata, firstOcc_cons_self]
      rfl
    have hsplitB : pySplit ("```\n" ++ P ++ "\n```") "```" =
        ["", ⟨'\n' :: (P.data ++ ['\n'])⟩, ""] := by
      show (pySplitL '`' ['`', '`']
          ("```\n" ++ P ++ "\n```").data).map (fun l => (⟨l⟩ : String)) = _
      rw [hBdata, pySplitL_sep_head, fence_split_three h3]
      rfl
    have hspM : pySplit (⟨'\n' :: (P.data ++ ['\n'])⟩ : String) "```" =
        [⟨'\n' :: (P.data ++ ['\n'])⟩] := by
      show (pySplitL '`' ['`', '`']
          ('\n' :: (P.data ++ ['\n']))).map (fun l => (⟨l⟩ : String)) = _
      rw [pySplitL_none (mid_firstOcc_three_none h3)]
      rfl
    rw [extract_response, if_neg (by simp [hcontBjson]), if_pos hcontB3,
      hsplitB]
    show pyStrip (pyIndex (pySplit
        (⟨'\n' :: (P.data ++ ['\n'])⟩ : String) "```") 0) = pyStrip P
    rw [hspM]
    exact hstripM
  · have hc1 : pyContains P "```json" = false := by
      show (firstOcc '`' ['`', '`', 'j', 's', 'o', 'n'] P.data).isSome = false
      rw [firstOcc_json_of_three_none h3]
      rfl
    rw [extract_response, if_neg (by simp [hc1]), if_neg (by simp [hP])]

/-- C6 counterexample: the valid JSON payload `[1, "``` 2 ```", 3]`, which
contains a fence marker inside a string literal, decodes to the number 2
when passed with no fence, but fails to decode at all when wrapped in a
code fence labeled json — so the three wrappings do not always parse to
the same structured result. -/
theorem parser_fence_tolerance_concrete :
    generate_structured (some "[1, \"``` 2 ```\", 3]") = some (Json.num 2 0) ∧
    generate_structured
        (some ("```json\n" ++ "[1, \"``` 2 ```\", 3]" ++ "\n```")) = none := by
  constructor <;> rfl

/-- C6 amended: for every JSON payload that does not contain the fence
marker ``` , the structured response parser treats the three wrappings
identically: the fenced forms extract exactly the stripped payload and the
bare form passes through unchanged, so every decode function that is
insensitive to surrounding whitespace — as strict JSON decoding is —
returns the same parsed result on all three. -/
theorem parser_fence_tolerance (J : String → Option Json)
    (hJ : ∀ s, J s = J (pyStrip s)) (P : String)
    (hP : pyContains P "```" = false) :
    J (extract_response ("```json\n" ++ P ++ "\n```")) =
      J (extract_response P) ∧
    J (extract_response ("```\n" ++ P ++ "\n```")) =
      J (extract_response P) := by
  obtain ⟨hA, hB, hbare⟩ := extract_response_forms P hP
  rw [hA, hB, hbare]
  exact ⟨(hJ P).symm, (hJ P).symm⟩

/-- Witness for the amended C6. -/
theorem parser_fence_tolerance_witness :
    ((fun _ => some Json.null : String → Option Json)
        (extract_response ("```json\n" ++ "[1, 2]" ++ "\n```")) =
      (fun _ => some Json.null : String → Option Json)
        (extract_response "[1, 2]")) ∧
    ((fun _ => some Json.null : String → Option Json)
        (extract_response ("```\n" ++ "[1, 2]" ++ "\n```")) =
      (fun _ => some Json.null : String → Option Json)
        (extract_response "[1, 2]")) :=
  parser_fence_tolerance (fun _ => some Json.null) (fun _ => rfl)
    "[1, 2]" rfl

end RobotAI
